import Mathlib

/-!
# Carpooling ride-sharing core — shallow embedding and verification

This file embeds the seat-allocation and assignment state machine of the
`rides` Django app (`src/rides/models.py`, `src/rides/views.py`) as pure
Lean functions over explicit state, and proves/refutes the specified
properties.

Modelling conventions:
* Users are identified by `Nat` ids; `profiles : Nat → Option UserProfile`
  models the one-to-one `UserProfile` table (`none` = the user has no
  `userprofile` row, mirroring the `hasattr(..., 'userprofile')` guards).
* A `Ride` carries its `RideShare` rows as a `List Share` (the
  `rideshare_set` of the ride, in database order).
* Every state-changing operation returns `Ride × Option OpError`:
  the ride after the operation and `none` on success, or the original ride
  unchanged together with `some e` on failure — mirroring the code, which
  either raises `ValidationError` / returns `(False, msg)` before any
  write, or rolls the transaction back.
* Machine integers are `Nat`/`Int`: Django `PositiveIntegerField`s are
  `Nat`, user-supplied counts (parsed by `int(...)` in the views) are
  `Int`, timestamps are `Int`.
-/

namespace Carpool

/-- The `UserProfile.role` choices (`ROLE_DRIVER` / `ROLE_USER`). -/
inductive Role where
  | Driver
  | Passenger
deriving DecidableEq, Repr

/-- The driver-relevant part of `UserProfile`: role and vehicle seat
capacity (`capacity = models.PositiveIntegerField(default=0)`). -/
structure UserProfile where
  role : Role
  capacity : Nat
deriving DecidableEq, Repr

/-- The `Ride.status` choices: `STATUS_OPEN`, `STATUS_DRIVING`,
`STATUS_COMPLETED`. -/
inductive RideStatus where
  | Open
  | Driving
  | Completed
deriving DecidableEq, Repr

/-- The `Ride.assignment_status` choices: `ASSIGN_NONE`, `ASSIGN_PENDING`,
`ASSIGN_ACCEPTED`, `ASSIGN_REJECTED`. -/
inductive AssignStatus where
  | None
  | Pending
  | Accepted
  | Rejected
deriving DecidableEq, Repr

/-- One `RideShare` row: the sharer's user id and the reserved seat
count (`passenger_count`). -/
structure Share where
  sharer : Nat
  passenger_count : Nat
deriving DecidableEq, Repr

/-- The `Ride` row together with its `rideshare_set`. -/
structure Ride where
  rider : Nat
  driver : Option Nat
  source : String
  destination : String
  arrivaldate : Int
  passenger : Nat
  sharable : Bool
  status : RideStatus
  assignment_status : AssignStatus
  shares : List Share
deriving DecidableEq, Repr

/-- The error kinds surfaced by the core operations (the code raises
`ValidationError` with distinct messages / returns `(False, msg)`;
one constructor per distinct message or error condition). -/
inductive OpError where
  | authorization
  | capacity
  | stateConflict
  | invalidCount
  | notSharable
  | driverNotAccepted
  | notFound
  | concurrency
deriving DecidableEq, Repr

/-- Profile table: user id to profile row, `none` when absent. -/
def Profiles := Nat → Option UserProfile

/-- Seats reserved by the sharers of a `rideshare_set`
(`aggregate(total=Sum('passenger_count'))['total'] or 0`). -/
def sharesSum (l : List Share) : Nat :=
  (l.map Share.passenger_count).sum

/-- Vehicle capacity of user `u` as the code reads it in
`accept_assignment` and the `assign_driver` view:
`getattr(user.userprofile, 'capacity', ...)` defaulted to `0` when the
profile is missing (`int(cap or 0)`). -/
def capacityOf (profiles : Profiles) (u : Nat) : Nat :=
  match profiles u with
  | some p => p.capacity
  | none => 0

/-- Model of `Ride.available_seats`: `none` when there is no driver, no profile,
or the capacity is unset/zero; otherwise
`max(cap - passenger - shared, 0)` (Nat subtraction truncates exactly
like the Python `max(..., 0)`). -/
def available_seats (profiles : Profiles) (r : Ride) : Option Nat :=
  match r.driver with
  | none => none
  | some d =>
    match profiles d with
    | none => none
    | some p =>
      if p.capacity = 0 then none
      else some (p.capacity - r.passenger - sharesSum r.shares)

/-- Model of `Ride.total_committed`: creator seats + sum of sharers. -/
def total_committed (r : Ride) : Nat :=
  r.passenger + sharesSum r.shares

/-- Model of `Ride.accept_assignment(user)`. -/
def accept_assignment (profiles : Profiles) (r : Ride) (user : Nat) :
    Ride × Option OpError :=
  if r.driver ≠ some user then (r, some .authorization)
  else
    let cap := capacityOf profiles user
    if cap < total_committed r then (r, some .capacity)
    else ({ r with assignment_status := .Accepted }, none)

/-- Model of `Ride.start(user)`: only the assigned and accepted driver can start
an open ride. -/
def start (r : Ride) (user : Nat) : Ride × Option OpError :=
  match r.driver with
  | none => (r, some .authorization)
  | some d =>
    if d ≠ user then (r, some .authorization)
    else if r.assignment_status ≠ .Accepted then (r, some .stateConflict)
    else if r.status ≠ .Open then (r, some .stateConflict)
    else ({ r with status := .Driving }, none)

/-- Model of `Ride.complete(user)`: only the assigned driver can complete a ride
in progress. -/
def complete (r : Ride) (user : Nat) : Ride × Option OpError :=
  match r.driver with
  | none => (r, some .authorization)
  | some d =>
    if d ≠ user then (r, some .authorization)
    else if r.status ≠ .Driving then (r, some .stateConflict)
    else ({ r with status := .Completed }, none)

/-- Update the first `RideShare` row of sharer `u` to seat count `c`
(the code updates the single row returned by
`filter(sharer=user).first()`). -/
def updateFirstShare : List Share → Nat → Nat → List Share
  | [], _, _ => []
  | s :: rest, u, c =>
    if s.sharer = u then { s with passenger_count := c } :: rest
    else s :: updateFirstShare rest u c

/-- Model of `Ride.join_or_update_share(user, passenger_count)`, with the ledger
state at insert time made explicit.  `dbShares` is the set of
`RideShare` rows the database holds when `RideShare.objects.create`
executes: it equals the snapshot read under the row lock
(`r.shares`) except when a concurrent transaction has committed a row
for the same `(ride, sharer)` in between, in which case the
`unique_together ('ride', 'sharer')` constraint raises
`IntegrityError`, caught and returned as the retryable concurrency
failure. -/
def join_or_update_share_env (profiles : Profiles) (r : Ride) (user : Nat)
    (passenger_count : Int) (dbShares : List Share) :
    Ride × Option OpError :=
  if passenger_count ≤ 0 then (r, some .invalidCount)
  else if ¬r.sharable ∨ r.status ≠ .Open then (r, some .notSharable)
  else if r.driver = none ∨ r.assignment_status ≠ .Accepted then
    (r, some .driverNotAccepted)
  else
    let existing := r.shares.find? (fun s => s.sharer == user)
    let existing_count := (existing.map Share.passenger_count).getD 0
    let available := ((available_seats profiles r).getD 0) + existing_count
    if passenger_count > (available : Int) then (r, some .capacity)
    else
      match existing with
      | some _ =>
        ({ r with shares := updateFirstShare r.shares user passenger_count.toNat },
         none)
      | none =>
        if dbShares.any (fun s => s.sharer == user) then (r, some .concurrency)
        else
          ({ r with shares := dbShares ++ [⟨user, passenger_count.toNat⟩] }, none)

/-- Model of `Ride.join_or_update_share(user, passenger_count)` in the
sequential (no interference) case: the ledger at insert time is the
snapshot read under the lock. -/
def join_or_update_share (profiles : Profiles) (r : Ride) (user : Nat)
    (passenger_count : Int) : Ride × Option OpError :=
  join_or_update_share_env profiles r user passenger_count r.shares

/-- Model of `Ride.leave_share(user)`: deletes the sharer's rows for this ride
and unconditionally returns `True`. -/
def leave_share (r : Ride) (user : Nat) : Ride × Bool :=
  ({ r with shares := r.shares.filter (fun s => s.sharer != user) }, true)

/-- Model of `Ride.update_share(user, new_count)`: positive-count check, lookup
of the existing row (`NotFound` when absent), then the same locked
capacity evaluation as join with the sharer's prior seats given back.
Note the code performs no sharable/status/assignment check here. -/
def update_share (profiles : Profiles) (r : Ride) (user : Nat)
    (new_count : Int) : Ride × Option OpError :=
  if new_count ≤ 0 then (r, some .invalidCount)
  else
    match r.shares.find? (fun s => s.sharer == user) with
    | none => (r, some .notFound)
    | some share =>
      let available := ((available_seats profiles r).getD 0) + share.passenger_count
      if new_count > (available : Int) then (r, some .capacity)
      else
        ({ r with shares := updateFirstShare r.shares user new_count.toNat }, none)

/-- The `assign_driver` view (POST branch): creator/admin authorization,
capacity pre-check against `total_committed`, then
`Ride.assign_driver(driver_user, assigned_by=request.user, auto_accept)`
with `auto_accept` when the assignee is the creator or the acting user
assigns themself. -/
def assign_driver_view (profiles : Profiles) (r : Ride)
    (actingUser driverUser : Nat) (isAdmin : Bool) :
    Ride × Option OpError :=
  if ¬(actingUser = r.rider ∨ isAdmin) then (r, some .authorization)
  else if capacityOf profiles driverUser < total_committed r then
    (r, some .capacity)
  else
    let autoAccept := driverUser = r.rider ∨ driverUser = actingUser
    ({ r with
        driver := some driverUser,
        assignment_status := if autoAccept then .Accepted else .Pending },
     none)

/-- The editable fields of `RideEditForm`
(`source, destination, arrivaldate, passenger, sharable, special`). -/
structure RideEdit where
  source : String
  destination : String
  arrivaldate : Int
  passenger : Nat
  sharable : Bool
deriving DecidableEq, Repr

/-- The `edit_ride` view: 404 unless the acting user is the creator,
only open rides are editable, the form requires a future arrival time —
and no capacity check whatsoever. -/
def edit_ride (now : Int) (r : Ride) (user : Nat) (e : RideEdit) :
    Ride × Option OpError :=
  if r.rider ≠ user then (r, some .notFound)
  else if r.status ≠ .Open then (r, some .stateConflict)
  else if e.arrivaldate < now then (r, some .invalidCount)
  else
    ({ r with
        source := e.source, destination := e.destination,
        arrivaldate := e.arrivaldate, passenger := e.passenger,
        sharable := e.sharable }, none)

/-- The `find_rides_to_share` view query:
`destination__iexact`, `arrivaldate__range=[early, late]`,
`sharable=True`, `status=open`, `assignment_status=accepted`,
`.exclude(rider=request.user)`. -/
def find_rides_to_share (rides : List Ride) (requester : Nat)
    (dest : String) (early late : Int) : List Ride :=
  rides.filter (fun r =>
    (r.destination.toLower == dest.toLower) &&
    (early ≤ r.arrivaldate && r.arrivaldate ≤ late) &&
    r.sharable &&
    (r.status == .Open) &&
    (r.assignment_status == .Accepted) &&
    (r.rider != requester))

/-- The capacity invariant of the spec: whenever a driver with known
positive capacity is accepted, total committed seats do not exceed
that capacity. -/
def capInvariant (profiles : Profiles) (r : Ride) : Bool :=
  match r.driver with
  | none => true
  | some d =>
    match profiles d with
    | none => true
    | some p =>
      if p.capacity = 0 then true
      else if r.assignment_status = .Accepted then
        total_committed r ≤ p.capacity
      else true

/-- Rank of a ride status along the forward-only lifecycle
`open → driving → completed`. -/
def statusRank : RideStatus → Nat
  | .Open => 0
  | .Driving => 1
  | .Completed => 2

/-- Modelled from the spec: the failure condition of `joinOrUpdate` as
the claim enumerates it — requestedCount < 1, ride not sharable,
status ≠ open, assignment_status ≠ accepted, or requestedCount
greater than availableSeats() (unknown read as 0) plus the calling
sharer's existing reserved seats.  Used to compare the spec's
enumeration with the code's behaviour. -/
def specJoinRejects (profiles : Profiles) (r : Ride) (u : Nat) (c : Int) :
    Bool :=
  (c < 1) || !r.sharable || !(r.status == RideStatus.Open) ||
  !(r.assignment_status == AssignStatus.Accepted) ||
  (c > (((available_seats profiles r).getD 0 +
    ((r.shares.find? (fun s => s.sharer == u)).map Share.passenger_count).getD 0
      : Nat) : Int))

/-- The spec's failure enumeration amended with the one extra rejection
the code performs in step 1: a ride with no driver record is rejected
even when its `assignment_status` is still `accepted`. -/
def amendedJoinRejects (profiles : Profiles) (r : Ride) (u : Nat) (c : Int) :
    Bool :=
  specJoinRejects profiles r u c || (r.driver == none)

/-- The `unique_together ('ride', 'sharer')` constraint of
`RideShare.Meta`: at most one reservation row per sharer on a ride. -/
def sharersUnique (l : List Share) : Prop :=
  (l.map Share.sharer).Nodup

/-- A profile table with no rows. -/
def pEmpty : Profiles := fun _ => none

/-- A profile table where user 1 is a driver with a 2-seat vehicle. -/
def pCap2 : Profiles := fun u =>
  if u = 1 then some ⟨Role.Driver, 2⟩ else none

/-- A profile table where user 1 is a driver with a 4-seat vehicle. -/
def pCap4 : Profiles := fun u =>
  if u = 1 then some ⟨Role.Driver, 4⟩ else none

/-- A profile table where user 1 is a driver whose capacity is unset
(`capacity = 0`, the column default). -/
def pCap0 : Profiles := fun u =>
  if u = 1 then some ⟨Role.Driver, 0⟩ else none

/-- A sharable open ride by rider 0 with driver 1 accepted, two creator
seats and no sharers. -/
def rideBase : Ride :=
  { rider := 0, driver := some 1, source := "a", destination := "b",
    arrivaldate := 100, passenger := 2, sharable := true,
    status := RideStatus.Open, assignment_status := AssignStatus.Accepted,
    shares := [] }

/-- A ride whose driver reference was cleared (`SET_NULL`) while the
assignment stayed `accepted`; sharer 7 holds 2 seats. -/
def rideNoDriver : Ride :=
  { rideBase with driver := none, shares := [⟨7, 2⟩] }

/-- A non-sharable ride already in progress, driverless and with a
pending assignment, on which sharer 7 still holds 2 seats. -/
def rideClosed : Ride :=
  { rideBase with
      driver := none, sharable := false,
      status := RideStatus.Driving,
      assignment_status := AssignStatus.Pending, shares := [⟨7, 2⟩] }

/-- The ride `rideBase` with one existing reservation of 2 seats by sharer 3. -/
def rideShared : Ride :=
  { rideBase with shares := [⟨3, 2⟩] }

/-- Updating the first row of a sharer exchanges that row's seat count
in the ledger sum. -/
theorem sharesSum_updateFirst (l : List Share) (u : Nat) (c : Nat) :
    ∀ s, l.find? (fun t => t.sharer == u) = some s →
      sharesSum (updateFirstShare l u c) + s.passenger_count =
        sharesSum l + c := by
  induction l with
  | nil => intro s h; simp [List.find?] at h
  | cons a l ih =>
    intro s h
    by_cases ha : a.sharer = u
    · rw [List.find?_cons_of_pos _ (by simp [ha])] at h
      cases h
      simp [updateFirstShare, ha, sharesSum]
      omega
    · rw [List.find?_cons_of_neg _ (by simp [ha])] at h
      have hrec := ih s h
      simp only [updateFirstShare, if_neg ha, sharesSum, List.map_cons,
        List.sum_cons] at hrec ⊢
      omega

/-- Updating a seat count does not change which sharers hold rows. -/
theorem map_sharer_updateFirst (l : List Share) (u c : Nat) :
    (updateFirstShare l u c).map Share.sharer = l.map Share.sharer := by
  induction l with
  | nil => rfl
  | cons a l ih =>
    by_cases ha : a.sharer = u <;> simp [updateFirstShare, ha, ih]

/-- Deleting rows can only decrease the ledger sum. -/
theorem sharesSum_filter_le (p : Share → Bool) (l : List Share) :
    sharesSum (l.filter p) ≤ sharesSum l := by
  induction l with
  | nil => simp [sharesSum]
  | cons a l ih =>
    by_cases ha : p a <;>
      simp only [sharesSum, List.filter_cons, ha, if_pos, if_neg,
        Bool.false_eq_true, ite_true, ite_false, List.map_cons,
        List.sum_cons] at ih ⊢ <;>
      omega

/-- The function `join_or_update_share_env` written as one explicit decision chain
(definitional unfolding of the `let`s). -/
theorem join_env_eq (profiles : Profiles) (r : Ride) (u : Nat) (c : Int)
    (db : List Share) :
    join_or_update_share_env profiles r u c db =
      if c ≤ 0 then (r, some OpError.invalidCount)
      else if ¬r.sharable = true ∨ r.status ≠ RideStatus.Open then
        (r, some OpError.notSharable)
      else if r.driver = none ∨ r.assignment_status ≠ AssignStatus.Accepted then
        (r, some OpError.driverNotAccepted)
      else if c > (((available_seats profiles r).getD 0 +
          ((r.shares.find? (fun s => s.sharer == u)).map
            Share.passenger_count).getD 0 : Nat) : Int) then
        (r, some OpError.capacity)
      else
        match r.shares.find? (fun s => s.sharer == u) with
        | some _ =>
          ({ r with shares := updateFirstShare r.shares u c.toNat }, none)
        | none =>
          if db.any (fun s => s.sharer == u) then (r, some OpError.concurrency)
          else ({ r with shares := db ++ [⟨u, c.toNat⟩] }, none) := rfl

/-- The amended rejection condition, spelled out as a disjunction of
propositions. -/
theorem amendedJoinRejects_iff (profiles : Profiles) (r : Ride) (u : Nat)
    (c : Int) :
    amendedJoinRejects profiles r u c = true ↔
      (c < 1 ∨ r.sharable = false ∨ r.status ≠ RideStatus.Open ∨
       r.assignment_status ≠ AssignStatus.Accepted ∨
       (((available_seats profiles r).getD 0 +
         ((r.shares.find? (fun s => s.sharer == u)).map
           Share.passenger_count).getD 0 : Nat) : Int) < c ∨
       r.driver = none) := by
  simp only [amendedJoinRejects, specJoinRejects, Bool.or_eq_true,
    decide_eq_true_eq, Bool.not_eq_true', beq_iff_eq, beq_eq_false_iff_ne,
    ne_eq]
  tauto

/-- Complete case analysis of the sequential
`Ride.join_or_update_share`: it either rejects (with the amended
rejection condition) leaving the ride unchanged, or commits, updating
the sharer's row in place or appending a fresh one. -/
theorem join_or_update_share_cases (profiles : Profiles) (r : Ride)
    (u : Nat) (c : Int) :
    (amendedJoinRejects profiles r u c = true ∧
      ∃ e, join_or_update_share profiles r u c = (r, some e)) ∨
    (amendedJoinRejects profiles r u c = false ∧
      1 ≤ c ∧ r.sharable = true ∧ r.status = RideStatus.Open ∧
      r.assignment_status = AssignStatus.Accepted ∧ (∃ d, r.driver = some d) ∧
      c ≤ (((available_seats profiles r).getD 0 +
        ((r.shares.find? (fun s => s.sharer == u)).map
          Share.passenger_count).getD 0 : Nat) : Int) ∧
      ((∃ s, r.shares.find? (fun t => t.sharer == u) = some s ∧
          join_or_update_share profiles r u c =
            ({ r with shares := updateFirstShare r.shares u c.toNat }, none)) ∨
       (r.shares.find? (fun t => t.sharer == u) = none ∧
          join_or_update_share profiles r u c =
            ({ r with shares := r.shares ++ [⟨u, c.toNat⟩] }, none)))) := by
  have henv : join_or_update_share profiles r u c =
      join_or_update_share_env profiles r u c r.shares := rfl
  by_cases h0 : c ≤ 0
  · refine Or.inl ⟨?_, OpError.invalidCount, ?_⟩
    · rw [amendedJoinRejects_iff]
      exact Or.inl (by omega)
    · rw [henv, join_env_eq, if_pos h0]
  · by_cases h1 : ¬r.sharable = true ∨ r.status ≠ RideStatus.Open
    · refine Or.inl ⟨?_, OpError.notSharable, ?_⟩
      · rw [amendedJoinRejects_iff]
        rcases h1 with h | h
        · exact Or.inr (Or.inl (by simpa using h))
        · exact Or.inr (Or.inr (Or.inl h))
      · rw [henv, join_env_eq, if_neg h0, if_pos h1]
    · by_cases h2 : r.driver = none ∨
          r.assignment_status ≠ AssignStatus.Accepted
      · refine Or.inl ⟨?_, OpError.driverNotAccepted, ?_⟩
        · rw [amendedJoinRejects_iff]
          rcases h2 with h | h
          · exact Or.inr (Or.inr (Or.inr (Or.inr (Or.inr h))))
          · exact Or.inr (Or.inr (Or.inr (Or.inl h)))
        · rw [henv, join_env_eq, if_neg h0, if_neg h1, if_pos h2]
      · by_cases h3 : c > (((available_seats profiles r).getD 0 +
            ((r.shares.find? (fun s => s.sharer == u)).map
              Share.passenger_count).getD 0 : Nat) : Int)
        · refine Or.inl ⟨?_, OpError.capacity, ?_⟩
          · rw [amendedJoinRejects_iff]
            exact Or.inr (Or.inr (Or.inr (Or.inr (Or.inl h3))))
          · rw [henv, join_env_eq, if_neg h0, if_neg h1, if_neg h2, if_pos h3]
        · push_neg at h1 h2
          refine Or.inr ⟨?_, by omega, h1.1, h1.2, h2.2, ?_, by omega, ?_⟩
          · rw [Bool.eq_false_iff]
            rw [ne_eq, amendedJoinRejects_iff]
            push_neg
            exact ⟨by omega, by simp [h1.1], h1.2, h2.2, by omega, h2.1⟩
          · rcases ho : r.driver with _ | d
            · exact absurd ho h2.1
            · exact ⟨d, rfl⟩
          · have hstep : join_or_update_share profiles r u c =
                (match r.shares.find? (fun s => s.sharer == u) with
                 | some _ =>
                   ({ r with shares := updateFirstShare r.shares u c.toNat },
                    none)
                 | none =>
                   if r.shares.any (fun s => s.sharer == u) then
                     (r, some OpError.concurrency)
                   else ({ r with shares := r.shares ++ [⟨u, c.toNat⟩] },
                     none)) := by
              rw [henv, join_env_eq, if_neg h0,
                if_neg (by tauto : ¬(¬r.sharable = true ∨
                  r.status ≠ RideStatus.Open)),
                if_neg (by tauto : ¬(r.driver = none ∨
                  r.assignment_status ≠ AssignStatus.Accepted)),
                if_neg h3]
            rcases hf : r.shares.find? (fun t => t.sharer == u) with _ | s
            · refine Or.inr ⟨hf, ?_⟩
              rw [hstep, hf]
              have hany : r.shares.any (fun s => s.sharer == u) = false := by
                rw [List.any_eq_false]
                intro t ht
                have := List.find?_eq_none.mp hf t ht
                simpa using this
              simp [hany]
            · exact Or.inl ⟨s, hf, by rw [hstep, hf]⟩

/-- The function `update_share` written as one explicit decision chain
(definitional unfolding of the `let`s). -/
theorem update_share_eq (profiles : Profiles) (r : Ride) (u : Nat) (c : Int) :
    update_share profiles r u c =
      if c ≤ 0 then (r, some OpError.invalidCount)
      else
        match r.shares.find? (fun s => s.sharer == u) with
        | none => (r, some OpError.notFound)
        | some share =>
          if c > (((available_seats profiles r).getD 0 +
              share.passenger_count : Nat) : Int) then
            (r, some OpError.capacity)
          else ({ r with shares := updateFirstShare r.shares u c.toNat }, none)
    := rfl

/-- C2: the claim's failure enumeration misses one rejection the code
performs: a ride whose driver reference was cleared while
`assignment_status` stayed `accepted` is rejected in step 1 even for a
request the claim's conditions would admit (sharer 7 already holds 2
seats and re-requests 2). -/
theorem c2_counterexample :
    (join_or_update_share pEmpty rideNoDriver 7 2).2 =
      some OpError.driverNotAccepted ∧
    specJoinRejects pEmpty rideNoDriver 7 2 = false := by decide

/-- C2 (amended): `join_or_update_share` fails, leaving the ride and
its reservations unchanged, exactly when requestedCount < 1, the ride
is not sharable, status ≠ open, assignment_status ≠ accepted, the ride
has no driver, or requestedCount exceeds availableSeats() (unknown
read as 0) plus the caller's existing seats; otherwise it succeeds,
updating the caller's reservation in place or creating a new one. -/
theorem c2_join_or_update_spec (profiles : Profiles) (r : Ride) (u : Nat)
    (c : Int) :
    ((join_or_update_share profiles r u c).2.isSome = true ↔
      amendedJoinRejects profiles r u c = true) ∧
    ((join_or_update_share profiles r u c).2.isSome = true →
      (join_or_update_share profiles r u c).1 = r) ∧
    (amendedJoinRejects profiles r u c = false →
      ((∃ s, r.shares.find? (fun t => t.sharer == u) = some s ∧
          join_or_update_share profiles r u c =
            ({ r with shares := updateFirstShare r.shares u c.toNat }, none)) ∨
       (r.shares.find? (fun t => t.sharer == u) = none ∧
          join_or_update_share profiles r u c =
            ({ r with shares := r.shares ++ [⟨u, c.toNat⟩] }, none)))) := by
  rcases join_or_update_share_cases profiles r u c with
    ⟨hrej, e, he⟩ | ⟨hrej, _, _, _, _, _, _, hsucc⟩
  · refine ⟨?_, ?_, ?_⟩
    · rw [he, hrej]
      simp
    · intro _
      rw [he]
    · intro hfalse
      rw [hrej] at hfalse
      cases hfalse
  · refine ⟨?_, ?_, ?_⟩
    · rw [hrej]
      constructor
      · intro h
        rcases hsucc with ⟨s, _, he⟩ | ⟨_, he⟩ <;> rw [he] at h <;> simp at h
      · intro h
        cases h
    · intro h
      rcases hsucc with ⟨s, _, he⟩ | ⟨_, he⟩ <;> rw [he] at h <;> simp at h
    · intro _
      exact hsucc

/-- C2 witness: on a concrete accepted sharable ride with a 4-seat
driver, a first-time join of 1 seat by user 7 succeeds and appends the
reservation. -/
theorem c2_join_or_update_spec_witness :
    join_or_update_share pCap4 rideBase 7 1 =
      ({ rideBase with shares := [⟨7, 1⟩] }, none) := by
  rcases (c2_join_or_update_spec pCap4 rideBase 7 1).2.2 (by decide) with
    ⟨s, hf, _⟩ | ⟨_, he⟩
  · simp [rideBase] at hf
  · rw [he]
    decide

/-- C3: `accept_assignment` fails with an authorization error unless
the acting user is the currently assigned driver, fails with a
capacity error when the driver's vehicle capacity (0 when the profile
is missing) is below total committed seats, leaves the ride unchanged
on every failure, and on success only flips `assignment_status` to
accepted. -/
theorem c3_accept_assignment_spec (profiles : Profiles) (r : Ride) (u : Nat) :
    (r.driver ≠ some u →
      accept_assignment profiles r u = (r, some OpError.authorization)) ∧
    (r.driver = some u → capacityOf profiles u < total_committed r →
      accept_assignment profiles r u = (r, some OpError.capacity)) ∧
    (r.driver = some u → total_committed r ≤ capacityOf profiles u →
      accept_assignment profiles r u =
        ({ r with assignment_status := AssignStatus.Accepted }, none)) ∧
    (∀ e, (accept_assignment profiles r u).2 = some e →
      (accept_assignment profiles r u).1 = r) := by
  refine ⟨?_, ?_, ?_, ?_⟩
  · intro h
    simp [accept_assignment, h]
  · intro h hc
    simp [accept_assignment, h, hc]
  · intro h hc
    simp [accept_assignment, h, Nat.not_lt.mpr hc]
  · intro e he
    by_cases h : r.driver = some u
    · by_cases hc : capacityOf profiles u < total_committed r
      · simp [accept_assignment, h, hc]
      · simp [accept_assignment, h, hc] at he
    · simp [accept_assignment, h]

/-- C3 witness: a driver whose capacity is unset (0) cannot accept a
ride that already commits 2 seats; the ride is returned unchanged with
the capacity error. -/
theorem c3_accept_assignment_spec_witness :
    accept_assignment pCap0 rideBase 1 = (rideBase, some OpError.capacity) :=
  (c3_accept_assignment_spec pCap0 rideBase 1).2.1 (by decide) (by decide)

/-- C5: contrary to the claim, `update_share` performs none of the
step-1 ride-state rejections: on a non-sharable, in-progress ride with
a pending assignment, a sharer holding 2 seats successfully reduces to
1 seat. -/
theorem c5_counterexample :
    rideClosed.sharable = false ∧ rideClosed.status ≠ RideStatus.Open ∧
    rideClosed.assignment_status ≠ AssignStatus.Accepted ∧
    update_share pEmpty rideClosed 7 1 =
      ({ rideClosed with shares := [⟨7, 1⟩] }, none) := by decide

/-- C5 (amended): `update_share` checks only that the new count is
positive, that the caller has an existing reservation (failing with
NotFoundError and no mutation otherwise), and the locked capacity
evaluation in which the sharer's prior seats are given back; it
performs no sharable/status/assignment rejection. -/
theorem c5_update_share_spec (profiles : Profiles) (r : Ride) (u : Nat)
    (c : Int) :
    (c ≤ 0 → update_share profiles r u c = (r, some OpError.invalidCount)) ∧
    (1 ≤ c → r.shares.find? (fun t => t.sharer == u) = none →
      update_share profiles r u c = (r, some OpError.notFound)) ∧
    (∀ s, 1 ≤ c → r.shares.find? (fun t => t.sharer == u) = some s →
      (c > (((available_seats profiles r).getD 0 +
          s.passenger_count : Nat) : Int) →
        update_share profiles r u c = (r, some OpError.capacity)) ∧
      (c ≤ (((available_seats profiles r).getD 0 +
          s.passenger_count : Nat) : Int) →
        update_share profiles r u c =
          ({ r with shares := updateFirstShare r.shares u c.toNat }, none))) ∧
    (∀ e, (update_share profiles r u c).2 = some e →
      (update_share profiles r u c).1 = r) := by
  refine ⟨?_, ?_, ?_, ?_⟩
  · intro h
    rw [update_share_eq, if_pos h]
  · intro hc hf
    rw [update_share_eq, if_neg (by omega), hf]
  · intro s hc hf
    constructor
    · intro hgt
      rw [update_share_eq, if_neg (by omega), hf]
      exact if_pos hgt
    · intro hle
      rw [update_share_eq, if_neg (by omega), hf]
      exact if_neg (by omega)
  · intro e he
    by_cases h0 : c ≤ 0
    · rw [update_share_eq, if_pos h0]
    · rcases hf : r.shares.find? (fun s => s.sharer == u) with _ | s
      · rw [update_share_eq, if_neg h0, hf]
      · by_cases hcap : c > (((available_seats profiles r).getD 0 +
            s.passenger_count : Nat) : Int)
        · have hres : update_share profiles r u c =
              (r, some OpError.capacity) := by
            rw [update_share_eq, if_neg h0, hf]
            exact if_pos hcap
          rw [hres]
        · have hres : update_share profiles r u c =
              ({ r with shares := updateFirstShare r.shares u c.toNat },
               none) := by
            rw [update_share_eq, if_neg h0, hf]
            exact if_neg hcap
          rw [hres] at he
          cases he

/-- C5 witness: updating a reservation that does not exist fails with
NotFound and leaves the ride unchanged. -/
theorem c5_update_share_spec_witness :
    update_share pCap4 rideBase 9 1 = (rideBase, some OpError.notFound) :=
  (c5_update_share_spec pCap4 rideBase 9 1).2.1 (by decide) (by decide)

/-- C4: `available_seats` returns
`max(capacity − requestedSeats − sumOfActiveShares, 0)` when a driver
with known positive capacity is assigned, and otherwise (no driver, no
profile, or zero capacity) returns the distinct unknown sentinel
`none`, which is not the number zero. -/
theorem c4_available_seats_spec (profiles : Profiles) (r : Ride) :
    (∀ d p, r.driver = some d → profiles d = some p → 0 < p.capacity →
      available_seats profiles r =
        some ((max ((p.capacity : Int) - (r.passenger : Int) -
          (sharesSum r.shares : Int)) 0).toNat)) ∧
    ((∀ d p, r.driver = some d → profiles d = some p → p.capacity = 0) →
      available_seats profiles r = none) := by
  constructor
  · intro d p hd hp hcap
    simp only [available_seats, hd, hp]
    rw [if_neg (by omega)]
    congr 1
    omega
  · intro h
    match hd : r.driver with
    | none => simp [available_seats, hd]
    | some d =>
      match hp : profiles d with
      | none => simp [available_seats, hd, hp]
      | some p => simp [available_seats, hd, hp, h d p hd hp]

/-- C4 witness: on a concrete ride with an accepted 4-seat driver, two
creator seats and a 2-seat sharer, `available_seats` is `some 0`. -/
theorem c4_available_seats_spec_witness :
    available_seats pCap4 { rideShared with shares := [⟨3, 2⟩] } = some 0 := by
  have h := (c4_available_seats_spec pCap4
    { rideShared with shares := [⟨3, 2⟩] }).1 1 ⟨Role.Driver, 4⟩ rfl rfl
    (by decide)
  simpa using h

/-- C8: `leave_share` is unconditional and idempotent — it reports
success, removes every reservation of the sharer, is a no-op when the
sharer holds none, and applying it twice equals applying it once. -/
theorem c8_leave_share_spec (r : Ride) (u : Nat) :
    (leave_share r u).2 = true ∧
    (∀ s ∈ (leave_share r u).1.shares, s.sharer ≠ u) ∧
    ((∀ s ∈ r.shares, s.sharer ≠ u) → (leave_share r u).1 = r) ∧
    leave_share (leave_share r u).1 u = leave_share r u := by
  refine ⟨rfl, ?_, ?_, ?_⟩
  · intro s hs
    simp only [leave_share, List.mem_filter, bne_iff_ne, ne_eq] at hs
    exact hs.2
  · intro h
    have hfil : r.shares.filter (fun s => s.sharer != u) = r.shares :=
      List.filter_eq_self.mpr (fun s hs => by simpa using h s hs)
    show ({ r with shares := r.shares.filter _ } : Ride) = r
    rw [hfil]
  · have hfil : (r.shares.filter (fun s => s.sharer != u)).filter
        (fun s => s.sharer != u) = r.shares.filter (fun s => s.sharer != u) := by
      rw [List.filter_filter]
      simp
    simp only [leave_share, hfil]

/-- C8 witness: leaving a ride on which user 5 holds no reservation
changes nothing. -/
theorem c8_leave_share_spec_witness :
    (leave_share rideShared 5).1 = rideShared := by
  exact (c8_leave_share_spec rideShared 5).2.2.1 (by decide)

/-- C9: the sharable-ride search returns exactly the rides of the input
whose destination matches case-insensitively, whose arrival time lies
in the inclusive window, which are sharable, open, accepted, and whose
creator is not the requester. -/
theorem c9_find_rides_spec (rides : List Ride) (requester : Nat)
    (dest : String) (early late : Int) (r : Ride) :
    r ∈ find_rides_to_share rides requester dest early late ↔
      r ∈ rides ∧ r.destination.toLower = dest.toLower ∧
      early ≤ r.arrivaldate ∧ r.arrivaldate ≤ late ∧
      r.sharable = true ∧ r.status = RideStatus.Open ∧
      r.assignment_status = AssignStatus.Accepted ∧ r.rider ≠ requester := by
  simp only [find_rides_to_share, List.mem_filter, Bool.and_eq_true,
    beq_iff_eq, bne_iff_ne, ne_eq, decide_eq_true_eq]
  tauto

/-- C6: ride status only ever advances `open → driving → completed`:
`start` succeeds exactly for the accepted driver of an open ride (so
`start` on a completed ride always fails), `complete` succeeds exactly
for the driver of a driving ride (so `complete` on an open ride always
fails), failures leave the ride unchanged, and the status rank never
decreases under either operation. -/
theorem c6_status_transitions (r : Ride) (u : Nat) :
    ((r.driver = some u ∧ r.assignment_status = AssignStatus.Accepted ∧
        r.status = RideStatus.Open) →
      start r u = ({ r with status := RideStatus.Driving }, none)) ∧
    (¬(r.driver = some u ∧ r.assignment_status = AssignStatus.Accepted ∧
        r.status = RideStatus.Open) → ∃ e, start r u = (r, some e)) ∧
    ((r.driver = some u ∧ r.status = RideStatus.Driving) →
      complete r u = ({ r with status := RideStatus.Completed }, none)) ∧
    (¬(r.driver = some u ∧ r.status = RideStatus.Driving) →
      ∃ e, complete r u = (r, some e)) ∧
    (r.status = RideStatus.Completed → ∃ e, start r u = (r, some e)) ∧
    (r.status = RideStatus.Open → ∃ e, complete r u = (r, some e)) ∧
    statusRank r.status ≤ statusRank (start r u).1.status ∧
    statusRank r.status ≤ statusRank (complete r u).1.status := by
  have hstart : ∀ P : Prop, (start r u = ({ r with status := RideStatus.Driving },
      none) → r.status = RideStatus.Open → P) →
      ((∃ e, start r u = (r, some e)) → P) → P := by
    intro P hyes hno
    rcases hdr : r.driver with _ | d
    · exact hno ⟨OpError.authorization, by simp [start, hdr]⟩
    · by_cases h1 : d = u
      · subst h1
        by_cases h2 : r.assignment_status = AssignStatus.Accepted
        · by_cases h3 : r.status = RideStatus.Open
          · exact hyes (by simp [start, hdr, h2, h3]) h3
          · exact hno ⟨OpError.stateConflict, by simp [start, hdr, h2, h3]⟩
        · exact hno ⟨OpError.stateConflict, by simp [start, hdr, h2]⟩
      · exact hno ⟨OpError.authorization, by simp [start, hdr, h1]⟩
  have hcomplete : ∀ P : Prop, (complete r u =
      ({ r with status := RideStatus.Completed }, none) →
      r.status = RideStatus.Driving → P) →
      ((∃ e, complete r u = (r, some e)) → P) → P := by
    intro P hyes hno
    rcases hdr : r.driver with _ | d
    · exact hno ⟨OpError.authorization, by simp [complete, hdr]⟩
    · by_cases h1 : d = u
      · subst h1
        by_cases h3 : r.status = RideStatus.Driving
        · exact hyes (by simp [complete, hdr, h3]) h3
        · exact hno ⟨OpError.stateConflict, by simp [complete, hdr, h3]⟩
      · exact hno ⟨OpError.authorization, by simp [complete, hdr, h1]⟩
  refine ⟨?_, ?_, ?_, ?_, ?_, ?_, ?_, ?_⟩
  · rintro ⟨hd, ha, ho⟩
    simp [start, hd, ha, ho]
  · intro h
    refine hstart _ ?_ id
    intro _ ho
    rcases hdr : r.driver with _ | d
    · exact ⟨OpError.authorization, by simp [start, hdr]⟩
    · by_cases h1 : d = u
      · subst h1
        by_cases h2 : r.assignment_status = AssignStatus.Accepted
        · exact absurd ⟨hdr, h2, ho⟩ h
        · exact ⟨OpError.stateConflict, by simp [start, hdr, h2]⟩
      · exact ⟨OpError.authorization, by simp [start, hdr, h1]⟩
  · rintro ⟨hd, ho⟩
    simp [complete, hd, ho]
  · intro h
    refine hcomplete _ ?_ id
    intro _ ho
    rcases hdr : r.driver with _ | d
    · exact ⟨OpError.authorization, by simp [complete, hdr]⟩
    · by_cases h1 : d = u
      · subst h1
        exact absurd ⟨hdr, ho⟩ h
      · exact ⟨OpError.authorization, by simp [complete, hdr, h1]⟩
  · intro hc
    refine hstart _ ?_ id
    intro _ ho
    rw [hc] at ho
    cases ho
  · intro hc
    refine hcomplete _ ?_ id
    intro _ ho
    rw [hc] at ho
    cases ho
  · refine hstart _ ?_ ?_
    · intro he ho
      rw [he, ho]
      simp [statusRank]
    · rintro ⟨e, he⟩
      rw [he]
  · refine hcomplete _ ?_ ?_
    · intro he ho
      rw [he, ho]
      simp [statusRank]
    · rintro ⟨e, he⟩
      rw [he]

/-- C6 witness: the accepted driver starts the concrete open ride, and
completing that still-open ride fails. -/
theorem c6_status_transitions_witness :
    start rideBase 1 = ({ rideBase with status := RideStatus.Driving }, none) ∧
    (∃ e, complete rideBase 1 = (rideBase, some e)) :=
  ⟨(c6_status_transitions rideBase 1).1 (by decide),
   (c6_status_transitions rideBase 1).2.2.2.2.2.1 (by decide)⟩

/-- C10: inside `join_or_update_share` the unknown availability
sentinel is treated as zero available seats: past the step-1 checks,
with `available_seats = none`, a first-time join of any count ≥ 1
fails with the capacity error and creates no reservation, while an
existing sharer's request within their own reservation succeeds. -/
theorem c10_unknown_availability_as_zero (profiles : Profiles) (r : Ride)
    (u : Nat) (c : Int) (hsh : r.sharable = true)
    (ho : r.status = RideStatus.Open)
    (ha : r.assignment_status = AssignStatus.Accepted)
    (hd : r.driver ≠ none) (hav : available_seats profiles r = none) :
    (r.shares.find? (fun t => t.sharer == u) = none → 1 ≤ c →
      join_or_update_share profiles r u c = (r, some OpError.capacity)) ∧
    (∀ s, r.shares.find? (fun t => t.sharer == u) = some s → 1 ≤ c →
      c ≤ (s.passenger_count : Int) →
      join_or_update_share profiles r u c =
        ({ r with shares := updateFirstShare r.shares u c.toNat }, none)) := by
  have henv : join_or_update_share profiles r u c =
      join_or_update_share_env profiles r u c r.shares := rfl
  have h2 : ¬(r.driver = none ∨
      r.assignment_status ≠ AssignStatus.Accepted) := by
    simp [hd, ha]
  constructor
  · intro hf hc
    rw [henv, join_env_eq, if_neg (by omega : ¬c ≤ 0),
      if_neg (by simp [hsh, ho]), if_neg h2, hav, hf]
    simp only [Option.getD_none, Option.map_none', Nat.add_zero,
      Nat.cast_zero]
    rw [if_pos (by omega : c > (0 : Int))]
  · intro s hf hc1 hc2
    rw [henv, join_env_eq, if_neg (by omega : ¬c ≤ 0),
      if_neg (by simp [hsh, ho]), if_neg h2, hav, hf]
    simp only [Option.getD_none, Option.map_some', Option.getD_some,
      Nat.zero_add]
    rw [if_neg (by omega : ¬c > ((s.passenger_count : Nat) : Int))]

/-- C10 witness: with a driver whose capacity is unset, a first-time
join of 1 seat fails with the capacity error, while sharer 3 reducing
an existing 2-seat reservation to 1 succeeds. -/
theorem c10_unknown_availability_as_zero_witness :
    join_or_update_share pCap0 rideBase 7 1 =
      (rideBase, some OpError.capacity) ∧
    join_or_update_share pCap0 rideShared 3 1 =
      ({ rideShared with shares := [⟨3, 1⟩] }, none) := by
  constructor
  · exact (c10_unknown_availability_as_zero pCap0 rideBase 7 1 (by decide)
      (by decide) (by decide) (by decide) (by decide)).1 (by decide) (by decide)
  · have h := (c10_unknown_availability_as_zero pCap0 rideShared 3 1
      (by decide) (by decide) (by decide) (by decide) (by decide)).2
      ⟨3, 2⟩ (by decide) (by decide) (by decide)
    rw [h]
    decide

/-- Appending one row adds its seat count to the ledger sum. -/
theorem sharesSum_append (l : List Share) (s : Share) :
    sharesSum (l ++ [s]) = sharesSum l + s.passenger_count := by
  simp [sharesSum]

/-- When a driver with a profile of nonzero capacity is assigned,
`available_seats` is the truncated difference. -/
theorem available_seats_known (profiles : Profiles) (r : Ride) (d : Nat)
    (p : UserProfile) (hd : r.driver = some d) (hp : profiles d = some p)
    (hc : p.capacity ≠ 0) :
    available_seats profiles r =
      some (p.capacity - r.passenger - sharesSum r.shares) := by
  simp [available_seats, hd, hp, hc]

/-- The capacity invariant, spelled out as a proposition. -/
theorem capInvariant_iff (profiles : Profiles) (r : Ride) :
    capInvariant profiles r = true ↔
      ∀ d p, r.driver = some d → profiles d = some p → 0 < p.capacity →
        r.assignment_status = AssignStatus.Accepted →
        total_committed r ≤ p.capacity := by
  rcases hd : r.driver with _ | d
  · simp only [capInvariant, hd]
    constructor
    · intro _ d p hdd
      cases hdd
    · intro _
      trivial
  · rcases hp : profiles d with _ | p
    · simp only [capInvariant, hd, hp]
      constructor
      · intro _ d' p' hdd hpp
        injection hdd with hdd'
        subst hdd'
        rw [hp] at hpp
        cases hpp
      · intro _
        trivial
    · by_cases hc : p.capacity = 0
      · simp only [capInvariant, hd, hp, if_pos hc]
        constructor
        · intro _ d' p' hdd hpp hcap
          injection hdd with hdd'
          subst hdd'
          rw [hp] at hpp
          injection hpp with hpp'
          subst hpp'
          intro _
          exact absurd hcap (by omega)
        · intro _
          trivial
      · by_cases ha : r.assignment_status = AssignStatus.Accepted
        · simp only [capInvariant, hd, hp, if_neg hc, if_pos ha,
            decide_eq_true_eq]
          constructor
          · intro h d' p' hdd hpp _ _
            injection hdd with hdd'
            subst hdd'
            rw [hp] at hpp
            injection hpp with hpp'
            subst hpp'
            exact h
          · intro h
            exact h d p rfl hp (by omega) ha
        · simp only [capInvariant, hd, hp, if_neg hc, if_neg ha]
          constructor
          · intro _ d' p' _ _ _ haa
            exact absurd haa ha
          · intro _
            trivial

/-- C7: at most one active reservation per (ride, sharer) pair —
`join_or_update_share` preserves the uniqueness of sharers — and a
unique-constraint violation at create time (the database ledger
already holds a row for the sharer that the locked read did not see)
is caught and surfaced as the retryable concurrency failure with no
mutation and no duplicate row. -/
theorem c7_uniqueness_and_concurrency :
    (∀ (profiles : Profiles) (r : Ride) (u : Nat) (c : Int),
      sharersUnique r.shares →
      sharersUnique (join_or_update_share profiles r u c).1.shares) ∧
    (∀ (profiles : Profiles) (r : Ride) (u : Nat) (c : Int)
        (db : List Share),
      1 ≤ c → r.sharable = true → r.status = RideStatus.Open →
      r.assignment_status = AssignStatus.Accepted → r.driver ≠ none →
      r.shares.find? (fun t => t.sharer == u) = none →
      c ≤ (((available_seats profiles r).getD 0 : Nat) : Int) →
      db.any (fun s => s.sharer == u) = true →
      join_or_update_share_env profiles r u c db =
        (r, some OpError.concurrency)) := by
  constructor
  · intro profiles r u c hu
    rcases join_or_update_share_cases profiles r u c with
      ⟨_, e, he⟩ | ⟨_, _, _, _, _, _, _, hsucc⟩
    · rw [he]
      exact hu
    · rcases hsucc with ⟨s, hf, he⟩ | ⟨hf, he⟩
      · rw [he]
        show sharersUnique (updateFirstShare r.shares u c.toNat)
        unfold sharersUnique at hu ⊢
        rw [map_sharer_updateFirst]
        exact hu
      · rw [he]
        show sharersUnique (r.shares ++ [⟨u, c.toNat⟩])
        unfold sharersUnique at hu ⊢
        rw [List.map_append]
        have hnotin : u ∉ r.shares.map Share.sharer := by
          intro hmem
          rcases List.mem_map.mp hmem with ⟨t, ht, hts⟩
          have hfalse := List.find?_eq_none.mp hf t ht
          simp [hts] at hfalse
        simp [List.nodup_append, hu, hnotin]
  · intro profiles r u c db hc hsh ho ha hd hf hcap hdb
    have h2 : ¬(r.driver = none ∨
        r.assignment_status ≠ AssignStatus.Accepted) := by
      simp [hd, ha]
    rw [join_env_eq, if_neg (by omega : ¬c ≤ 0),
      if_neg (by simp [hsh, ho]), if_neg h2, hf]
    simp only [Option.map_none', Option.getD_none, Nat.add_zero]
    rw [if_neg (by omega : ¬c > (((available_seats profiles r).getD 0 :
      Nat) : Int)), if_pos hdb]

/-- C7 witness: the sequential join keeps sharers unique on a concrete
ride, and when the database already holds a row for sharer 7 at create
time the operation surfaces the concurrency error unchanged. -/
theorem c7_uniqueness_and_concurrency_witness :
    sharersUnique (join_or_update_share pCap4 rideBase 7 1).1.shares ∧
    join_or_update_share_env pCap4 rideBase 7 1 [⟨7, 5⟩] =
      (rideBase, some OpError.concurrency) :=
  ⟨c7_uniqueness_and_concurrency.1 pCap4 rideBase 7 1
     (by simp [sharersUnique, rideBase]),
   c7_uniqueness_and_concurrency.2 pCap4 rideBase 7 1 [⟨7, 5⟩]
     (by decide) (by decide) (by decide) (by decide) (by decide)
     (by decide) (by decide) (by decide)⟩

/-- C1: the claim fails on ride edits — `edit_ride` re-checks no
capacity: on a concrete ride whose accepted driver has capacity 2 and
whose creator holds 2 seats (invariant holds), the creator edits the
seat request to 5; the edit succeeds and the invariant is violated. -/
theorem c1_counterexample :
    capInvariant pCap2 rideBase = true ∧
    (edit_ride 0 rideBase 0 ⟨"a", "b", 100, 5, true⟩).2 = none ∧
    capInvariant pCap2 (edit_ride 0 rideBase 0 ⟨"a", "b", 100, 5, true⟩).1 =
      false := by decide

/-- C1 (amended): the capacity invariant — committed seats never exceed
an accepted driver's known positive capacity — is preserved by
`join_or_update_share`, `update_share`, `leave_share`,
`accept_assignment` and the `assign_driver` view (but not by ride
edits, which perform no capacity check). -/
theorem c1_capacity_invariant_preserved (profiles : Profiles) (r : Ride)
    (hinv : capInvariant profiles r = true) :
    (∀ u c, capInvariant profiles
      (join_or_update_share profiles r u c).1 = true) ∧
    (∀ u c, capInvariant profiles (update_share profiles r u c).1 = true) ∧
    (∀ u, capInvariant profiles (leave_share r u).1 = true) ∧
    (∀ u, capInvariant profiles (accept_assignment profiles r u).1 = true) ∧
    (∀ acting du admin, capInvariant profiles
      (assign_driver_view profiles r acting du admin).1 = true) := by
  refine ⟨?_, ?_, ?_, ?_, ?_⟩
  · intro u c
    rcases join_or_update_share_cases profiles r u c with
      ⟨_, e, he⟩ | ⟨_, hc1, hsh, ho, ha, ⟨d, hd⟩, hcap, hsucc⟩
    · rw [he]
      exact hinv
    · rcases hsucc with ⟨s, hf, he⟩ | ⟨hf, he⟩
      · rw [he, capInvariant_iff]
        intro d' p hd' hp hpcap ha'
        have hrd : r.driver = some d' := hd'
        rw [hd] at hrd
        injection hrd with hdd
        subst hdd
        have hav := available_seats_known profiles r d p hd hp (by omega)
        have hpre := (capInvariant_iff profiles r).mp hinv d p hd hp hpcap ha
        have hsum := sharesSum_updateFirst r.shares u c.toNat s hf
        rw [hav, hf] at hcap
        simp only [Option.getD_some, Option.map_some'] at hcap
        show r.passenger +
          sharesSum (updateFirstShare r.shares u c.toNat) ≤ p.capacity
        unfold total_committed at hpre
        omega
      · rw [he, capInvariant_iff]
        intro d' p hd' hp hpcap ha'
        have hrd : r.driver = some d' := hd'
        rw [hd] at hrd
        injection hrd with hdd
        subst hdd
        have hav := available_seats_known profiles r d p hd hp (by omega)
        have hpre := (capInvariant_iff profiles r).mp hinv d p hd hp hpcap ha
        have hsum : sharesSum (r.shares ++ [⟨u, c.toNat⟩]) =
            sharesSum r.shares + c.toNat := by
          simpa using sharesSum_append r.shares ⟨u, c.toNat⟩
        rw [hav, hf] at hcap
        simp only [Option.getD_some, Option.map_none', Option.getD_none,
          Nat.add_zero] at hcap
        show r.passenger +
          sharesSum (r.shares ++ [⟨u, c.toNat⟩]) ≤ p.capacity
        unfold total_committed at hpre
        omega
  · intro u c
    by_cases h0 : c ≤ 0
    · rw [update_share_eq, if_pos h0]
      exact hinv
    · rcases hf : r.shares.find? (fun s => s.sharer == u) with _ | s
      · rw [update_share_eq, if_neg h0, hf]
        exact hinv
      · by_cases hcap : c > (((available_seats profiles r).getD 0 +
            s.passenger_count : Nat) : Int)
        · have hres : update_share profiles r u c =
              (r, some OpError.capacity) := by
            rw [update_share_eq, if_neg h0, hf]
            exact if_pos hcap
          rw [hres]
          exact hinv
        · have hres : update_share profiles r u c =
              ({ r with shares := updateFirstShare r.shares u c.toNat },
               none) := by
            rw [update_share_eq, if_neg h0, hf]
            exact if_neg hcap
          rw [hres, capInvariant_iff]
          intro d p hd' hp hpcap ha'
          have hrd : r.driver = some d := hd'
          have hra : r.assignment_status = AssignStatus.Accepted := ha'
          have hav := available_seats_known profiles r d p hrd hp (by omega)
          have hpre := (capInvariant_iff profiles r).mp hinv d p hrd hp
            hpcap hra
          have hsum := sharesSum_updateFirst r.shares u c.toNat s hf
          rw [hav] at hcap
          simp only [Option.getD_some] at hcap
          show r.passenger +
            sharesSum (updateFirstShare r.shares u c.toNat) ≤ p.capacity
          unfold total_committed at hpre
          omega
  · intro u
    rw [capInvariant_iff]
    intro d p hd' hp hpcap ha'
    have hrd : r.driver = some d := hd'
    have hra : r.assignment_status = AssignStatus.Accepted := ha'
    have hpre := (capInvariant_iff profiles r).mp hinv d p hrd hp hpcap hra
    have hle := sharesSum_filter_le (fun s => s.sharer != u) r.shares
    show r.passenger +
      sharesSum (r.shares.filter (fun s => s.sharer != u)) ≤ p.capacity
    unfold total_committed at hpre
    omega
  · intro u
    by_cases h : r.driver ≠ some u
    · have hres : accept_assignment profiles r u =
          (r, some OpError.authorization) := by
        simp [accept_assignment, h]
      rw [hres]
      exact hinv
    · push_neg at h
      by_cases hc : capacityOf profiles u < total_committed r
      · have hres : accept_assignment profiles r u =
            (r, some OpError.capacity) := by
          simp [accept_assignment, h, hc]
        rw [hres]
        exact hinv
      · have hres : accept_assignment profiles r u =
            ({ r with assignment_status := AssignStatus.Accepted }, none) := by
          simp [accept_assignment, h, hc]
        rw [hres, capInvariant_iff]
        intro d p hd' hp hpcap _
        have hrd : r.driver = some d := hd'
        rw [h] at hrd
        injection hrd with hud
        subst hud
        have hcapof : capacityOf profiles u = p.capacity := by
          unfold capacityOf
          rw [hp]
        show total_committed r ≤ p.capacity
        omega
  · intro acting du admin
    by_cases hauth : ¬(acting = r.rider ∨ admin = true)
    · have hres : assign_driver_view profiles r acting du admin =
          (r, some OpError.authorization) := by
        unfold assign_driver_view
        rw [if_pos hauth]
      rw [hres]
      exact hinv
    · by_cases hcap : capacityOf profiles du < total_committed r
      · have hres : assign_driver_view profiles r acting du admin =
            (r, some OpError.capacity) := by
          unfold assign_driver_view
          rw [if_neg hauth, if_pos hcap]
        rw [hres]
        exact hinv
      · have hres : assign_driver_view profiles r acting du admin =
            ({ r with
                driver := some du,
                assignment_status :=
                  if du = r.rider ∨ du = acting then AssignStatus.Accepted
                  else AssignStatus.Pending }, none) := by
          unfold assign_driver_view
          rw [if_neg hauth, if_neg hcap]
        rw [hres, capInvariant_iff]
        intro d p hd' hp hpcap _
        have hrd : some du = some d := hd'
        injection hrd with hud
        subst hud
        have hcapof : capacityOf profiles du = p.capacity := by
          unfold capacityOf
          rw [hp]
        show total_committed r ≤ p.capacity
        omega

/-- C1 witness: on the concrete base ride with a 4-seat accepted
driver, the invariant holds after a join of 2 seats by user 7 and
after the driver re-accepts. -/
theorem c1_capacity_invariant_preserved_witness :
    capInvariant pCap4 (join_or_update_share pCap4 rideBase 7 2).1 = true ∧
    capInvariant pCap4 (accept_assignment pCap4 rideBase 1).1 = true :=
  ⟨(c1_capacity_invariant_preserved pCap4 rideBase (by decide)).1 7 2,
   (c1_capacity_invariant_preserved pCap4 rideBase (by decide)).2.2.2.1 1⟩

end Carpool
